import Mathlib

/-!
Shallow embedding of `src/static/script.js` from CogniSynapseRank.

The source is a browser-side client with two parts:

* a submit listener on `analysisForm` that derives a submission record from
  the form fields, issues `POST /analyze`, reads `task_id` from the JSON
  response, writes `Task started...` to the status display and starts the
  poll loop (lines 1-18);
* `pollStatus(taskId)`, which uses `setInterval(..., 2000)` to fetch
  `GET /results/{taskId}` every 2000 ms, compares `data.status` to the
  sentinel string `'Analysis Completed'` with `===`, and on a match calls
  `clearInterval`, writes the completion texts to the status and results
  displays; on a mismatch it writes `Current Task: <status>` to the status
  display and keeps polling (lines 20-36).

JSON scalar values reaching the client (`data.status`, absent fields giving
`undefined`) are modelled by `JsValue`; a parsed response object by `JsObj`
with JS property access (`jsGet`, absent keys yield `undefined`).  The poll
loop is modelled as a trace semantics: `pollStatusRun tid oracle n` is the
observable state after the first `n` timer ticks, where `oracle k` is the
parsed JSON body answering the `k`-th status query.  Each response is
assumed to resolve before the next tick fires (the single-in-flight
reading; the spec itself flags overlapping queries as a latent hazard and
no claim depends on overlap).  `setInterval` scheduling is modelled by
`tickTime`: callback `k` runs at `2000 * (k + 1)` ms after invocation.
Numbers are restricted to integers; float formatting never matters for the
analysed behavior.
-/

namespace CogniSynapseRank

/-- A JavaScript runtime scalar value as it can appear in a parsed JSON
response field (`undefined` for an absent property). -/
inductive JsValue where
  | undef : JsValue
  | null : JsValue
  | bool : Bool → JsValue
  | num : Int → JsValue
  | str : String → JsValue
deriving DecidableEq

/-- A parsed JSON object: an association list of properties. -/
def JsObj : Type := List (String × JsValue)

/-- JS property access `o.k`: the first binding of `k`, `undefined` when
absent. -/
def jsGet (o : JsObj) (k : String) : JsValue :=
  match o.find? (fun p => p.1 == k) with
  | some p => p.2
  | none => JsValue.undef

/-- JS strict equality `v === s` of a runtime value against a string
literal: true exactly for the equal string, false for every other value or
type. -/
def strictEqStr (v : JsValue) (s : String) : Bool :=
  match v with
  | JsValue.str t => t == s
  | _ => false

/-- JS template-literal stringification, as in `` `Current Task: ${v}` ``. -/
def jsDisplay (v : JsValue) : String :=
  match v with
  | JsValue.undef => "undefined"
  | JsValue.null => "null"
  | JsValue.bool b => if b then "true" else "false"
  | JsValue.num i => toString i
  | JsValue.str s => s

/-- Character-level semantics of JS `s.split(',')`: pieces between commas,
so the empty string yields one empty piece and a trailing comma yields a
trailing empty piece. -/
def splitCommaChars : List Char → List (List Char)
  | [] => [[]]
  | c :: cs =>
    if c = ',' then [] :: splitCommaChars cs
    else
      match splitCommaChars cs with
      | [] => [[c]]
      | h :: t => (c :: h) :: t

/-- JS `s.split(',')` on strings. -/
def jsSplitComma (s : String) : List String :=
  (splitCommaChars s.data).map (fun l => String.mk l)

/-- JS `s.trim()`: remove leading and trailing whitespace. -/
def jsTrim (s : String) : String :=
  String.mk (((s.data.dropWhile Char.isWhitespace).reverse.dropWhile
    Char.isWhitespace).reverse)

/-- Line 5 of the source: `comparison_urls` as derived in the submit
listener, `.split(',').map(url => url.trim()).filter(url => url)`; the JS
truthiness filter keeps exactly the nonempty strings. -/
def comparisonUrlsOfField (raw : String) : List String :=
  ((jsSplitComma raw).map jsTrim).filter (fun u => !u.isEmpty)

/-- The derivation as the spec words it: split on a comma, trim surrounding
whitespace from each piece, discard empty pieces, keeping input order. -/
def specComparisonUrls (raw : String) : List String :=
  ((jsSplitComma raw).map jsTrim).filter (fun u => u ≠ "")

/-- The terminal sentinel string compared with `===` on line 28. -/
def sentinel : String := "Analysis Completed"

/-- The completion text written to the status display on line 30. -/
def statusDoneText : String := "Analysis Completed!"

/-- The completion text written to the results display on line 31. -/
def resultsDoneText : String :=
  "Check your analysis results in server logs or API response."

/-- The delay argument of `setInterval` on line 35, in milliseconds. -/
def pollIntervalMs : Nat := 2000

/-- `setInterval(cb, d)` scheduling: the `k`-th callback run happens
`d * (k + 1)` ms after registration, so the first run is one full delay
after `pollStatus` is invoked, never immediately. -/
def tickTime (k : Nat) : Nat := pollIntervalMs * (k + 1)

/-- The observable state of one `pollStatus` loop: whether `clearInterval`
has run, the two display regions, and instrumentation counting status
queries, completion signals and writes to the results region, plus the log
of request URLs issued. -/
structure PollState where
  stopped : Bool
  statusText : String
  resultsText : String
  queries : Nat
  completions : Nat
  resultsWrites : Nat
  requests : List String
deriving DecidableEq

/-- State when `pollStatus` starts: the submit listener has just written
`Task started...` to the status display (line 16); the results region is
untouched, no query issued yet. -/
def pollInit : PollState :=
  { stopped := false
    statusText := "Task started..."
    resultsText := ""
    queries := 0
    completions := 0
    resultsWrites := 0
    requests := [] }

/-- One run of the `setInterval` callback (lines 25-34): fetch
`/results/{taskId}`, read `data.status`, and either clear the interval and
write the completion texts, or write `Current Task: <status>` and keep
going.  `resp` is the parsed JSON body answering this query. -/
def applyTick (tid : String) (st : PollState) (resp : JsObj) : PollState :=
  let status := jsGet resp "status"
  let st2 : PollState :=
    { st with queries := st.queries + 1
              requests := st.requests ++ ["/results/" ++ tid] }
  if strictEqStr status sentinel then
    { st2 with stopped := true
               statusText := statusDoneText
               resultsText := resultsDoneText
               completions := st2.completions + 1
               resultsWrites := st2.resultsWrites + 1 }
  else
    { st2 with statusText := "Current Task: " ++ jsDisplay status }

/-- Trace semantics of `pollStatus(tid)`: the state after the first `n`
timer ticks, where `oracle k` is the parsed JSON body answering the `k`-th
status query.  A tick whose interval was already cleared does nothing. -/
def pollStatusRun (tid : String) (oracle : Nat → JsObj) : Nat → PollState
  | 0 => pollInit
  | n + 1 =>
    let st := pollStatusRun tid oracle n
    if st.stopped then st else applyTick tid st (oracle st.queries)

/-- A JSON value as serialized into the `/analyze` request body: the two
field shapes `JSON.stringify` produces on line 10 (a string and an array of
strings). -/
inductive JsonVal where
  | str : String → JsonVal
  | strArr : List String → JsonVal
deriving DecidableEq

/-- An HTTP request as issued by `fetch`, with a structured JSON body. -/
structure HttpRequest where
  method : String
  url : String
  headers : List (String × String)
  body : List (String × JsonVal)
deriving DecidableEq

/-- The `fetch('/analyze', ...)` call of lines 7-11: method, header and
`JSON.stringify({ main_url, comparison_urls })` body. -/
def analyzeRequest (main_url : String) (comparison_urls : List String) :
    HttpRequest :=
  { method := "POST"
    url := "/analyze"
    headers := [("Content-Type", "application/json")]
    body := [("main_url", JsonVal.str main_url),
             ("comparison_urls", JsonVal.strArr comparison_urls)] }

/-- All task-creation requests issued by one run of the submit listener:
exactly the one `fetch` of line 7, with `main_url` read verbatim from the
form and `comparison_urls` derived on line 5. -/
def submitRequests (main_url_field comparison_urls_field : String) :
    List HttpRequest :=
  [analyzeRequest main_url_field (comparisonUrlsOfField comparison_urls_field)]

/-- The user-visible effects the submit listener performs after its two
awaited steps succeed: the status display update of line 16 and the
`pollStatus(taskId)` start of line 17 with `data.task_id`. -/
structure SubmitEffects where
  statusText : String
  polledTask : JsValue
deriving DecidableEq

/-- The submit listener after the form fields are read (lines 7-17), with
its two fallible suspension points explicit: `fetched` is the outcome of
`await fetch(...)` delivering the raw body, `parseJson` the outcome of
`await response.json()`.  The listener has no try/catch, so a rejection at
either point aborts before any user-visible effect. -/
def runSubmit (fetched : Except String String)
    (parseJson : String → Except String JsObj) :
    Except String SubmitEffects :=
  match fetched with
  | Except.error e => Except.error e
  | Except.ok raw =>
    match parseJson raw with
    | Except.error e => Except.error e
    | Except.ok data =>
      Except.ok { statusText := "Task started..."
                  polledTask := jsGet data "task_id" }

/-- Response oracle answering `Queued`, then `Running`, then the terminal
status. -/
def oracleQRC : Nat → JsObj := fun k =>
  if k = 0 then [("status", JsValue.str "Queued")]
  else if k = 1 then [("status", JsValue.str "Running")]
  else [("status", JsValue.str "Analysis Completed")]

/-- Response oracle that always answers the terminal status. -/
def oracleDone : Nat → JsObj := fun _ =>
  [("status", JsValue.str "Analysis Completed")]

/-- Response oracle that never answers the terminal status. -/
def oracleRunning : Nat → JsObj := fun _ =>
  [("status", JsValue.str "Running")]

end CogniSynapseRank

namespace CogniSynapseRank

theorem comparisonUrls_filter_pred (u : String) :
    (!u.isEmpty) = decide (u ≠ "") := by
  by_cases h : u = ""
  · subst h
    decide
  · have h2 : u.isEmpty = false := by
      cases he : u.isEmpty
      · rfl
      · exact absurd ((String.isEmpty_iff u).mp he) h
    simp [h2, h]

theorem comparisonUrls_eq_spec (raw : String) :
    comparisonUrlsOfField raw = specComparisonUrls raw := by
  unfold comparisonUrlsOfField specComparisonUrls
  exact List.filter_congr (fun u _ => comparisonUrls_filter_pred u)

/-- C2: the derived comparison_urls list is exactly the split-trim-drop of
the form field, order preserved; `"a, b ,, c"` gives `["a", "b", "c"]` and
`""` gives `[]`. -/
theorem comparison_urls_parse (raw : String) :
    comparisonUrlsOfField raw = specComparisonUrls raw ∧
    comparisonUrlsOfField "a, b ,, c" = ["a", "b", "c"] ∧
    comparisonUrlsOfField "" = [] := by
  refine ⟨comparisonUrls_eq_spec raw, ?_, ?_⟩ <;> decide

theorem applyTick_stopped (tid : String) (st : PollState) (resp : JsObj) :
    (applyTick tid st resp).stopped =
      (if strictEqStr (jsGet resp "status") sentinel then true
       else st.stopped) := by
  cases h : strictEqStr (jsGet resp "status") sentinel <;> simp [applyTick, h]

theorem applyTick_statusText (tid : String) (st : PollState) (resp : JsObj) :
    (applyTick tid st resp).statusText =
      (if strictEqStr (jsGet resp "status") sentinel then statusDoneText
       else "Current Task: " ++ jsDisplay (jsGet resp "status")) := by
  cases h : strictEqStr (jsGet resp "status") sentinel <;> simp [applyTick, h]

theorem applyTick_resultsText (tid : String) (st : PollState) (resp : JsObj) :
    (applyTick tid st resp).resultsText =
      (if strictEqStr (jsGet resp "status") sentinel then resultsDoneText
       else st.resultsText) := by
  cases h : strictEqStr (jsGet resp "status") sentinel <;> simp [applyTick, h]

theorem applyTick_queries (tid : String) (st : PollState) (resp : JsObj) :
    (applyTick tid st resp).queries = st.queries + 1 := by
  cases h : strictEqStr (jsGet resp "status") sentinel <;> simp [applyTick, h]

theorem applyTick_completions (tid : String) (st : PollState) (resp : JsObj) :
    (applyTick tid st resp).completions =
      (if strictEqStr (jsGet resp "status") sentinel then st.completions + 1
       else st.completions) := by
  cases h : strictEqStr (jsGet resp "status") sentinel <;> simp [applyTick, h]

theorem applyTick_resultsWrites (tid : String) (st : PollState) (resp : JsObj) :
    (applyTick tid st resp).resultsWrites =
      (if strictEqStr (jsGet resp "status") sentinel then st.resultsWrites + 1
       else st.resultsWrites) := by
  cases h : strictEqStr (jsGet resp "status") sentinel <;> simp [applyTick, h]

theorem applyTick_requests (tid : String) (st : PollState) (resp : JsObj) :
    (applyTick tid st resp).requests = st.requests ++ ["/results/" ++ tid] := by
  cases h : strictEqStr (jsGet resp "status") sentinel <;> simp [applyTick, h]

theorem pollStatusRun_succ (tid : String) (oracle : Nat → JsObj) (n : Nat) :
    pollStatusRun tid oracle (n + 1) =
      (if (pollStatusRun tid oracle n).stopped then pollStatusRun tid oracle n
       else applyTick tid (pollStatusRun tid oracle n)
         (oracle (pollStatusRun tid oracle n).queries)) := rfl

theorem pollStatusRun_queries (tid : String) (oracle : Nat → JsObj) (n : Nat)
    (hs : (pollStatusRun tid oracle n).stopped = false) :
    (pollStatusRun tid oracle n).queries = n := by
  induction n with
  | zero => rfl
  | succ n ih =>
    rw [pollStatusRun_succ] at hs ⊢
    rcases Bool.eq_false_or_eq_true (pollStatusRun tid oracle n).stopped
      with h | h
    · simp [h] at hs
    · simp [h, applyTick_queries, ih h]

theorem pollStatusRun_completions (tid : String) (oracle : Nat → JsObj)
    (n : Nat) :
    (pollStatusRun tid oracle n).completions =
      (if (pollStatusRun tid oracle n).stopped then 1 else 0) := by
  induction n with
  | zero => rfl
  | succ n ih =>
    rw [pollStatusRun_succ]
    rcases Bool.eq_false_or_eq_true (pollStatusRun tid oracle n).stopped
      with h | h
    · simp [h, ih]
    · rcases Bool.eq_false_or_eq_true (strictEqStr
          (jsGet (oracle (pollStatusRun tid oracle n).queries) "status")
          sentinel) with hb | hb <;>
        simp [h, hb, ih, applyTick_completions, applyTick_stopped]

theorem pollStatusRun_resultsWrites (tid : String) (oracle : Nat → JsObj)
    (n : Nat) :
    (pollStatusRun tid oracle n).resultsWrites =
      (if (pollStatusRun tid oracle n).stopped then 1 else 0) := by
  induction n with
  | zero => rfl
  | succ n ih =>
    rw [pollStatusRun_succ]
    rcases Bool.eq_false_or_eq_true (pollStatusRun tid oracle n).stopped
      with h | h
    · simp [h, ih]
    · rcases Bool.eq_false_or_eq_true (strictEqStr
          (jsGet (oracle (pollStatusRun tid oracle n).queries) "status")
          sentinel) with hb | hb <;>
        simp [h, hb, ih, applyTick_resultsWrites, applyTick_stopped]

theorem pollStatusRun_frozen (tid : String) (oracle : Nat → JsObj) (n : Nat)
    (hs : (pollStatusRun tid oracle n).stopped = true) (j : Nat) :
    pollStatusRun tid oracle (n + j) = pollStatusRun tid oracle n := by
  induction j with
  | zero => rfl
  | succ j ih =>
    show pollStatusRun tid oracle ((n + j) + 1) = _
    rw [pollStatusRun_succ, ih, hs]
    simp

theorem strictEqStr_iff (v : JsValue) (s : String) :
    strictEqStr v s = true ↔ v = JsValue.str s := by
  cases v <;> simp [strictEqStr]

theorem pollStatusRun_stopped_iff (tid : String) (oracle : Nat → JsObj)
    (n : Nat) :
    (pollStatusRun tid oracle n).stopped = true ↔
      ∃ k, k < n ∧ strictEqStr (jsGet (oracle k) "status") sentinel = true := by
  induction n with
  | zero =>
    simp only [pollStatusRun]
    constructor
    · intro hf
      exact absurd hf (by simp [pollInit])
    · rintro ⟨k, hk, _⟩
      exact absurd hk (Nat.not_lt_zero k)
  | succ n ih =>
    rw [pollStatusRun_succ]
    rcases Bool.eq_false_or_eq_true (pollStatusRun tid oracle n).stopped
      with h | h
    · rw [h]
      simp only [eq_self_iff_true, if_true]
      constructor
      · intro _
        obtain ⟨k, hk, hP⟩ := ih.mp h
        exact ⟨k, Nat.lt_succ_of_lt hk, hP⟩
      · intro _
        exact h
    · have hq : (pollStatusRun tid oracle n).queries = n :=
        pollStatusRun_queries tid oracle n h
      rw [hq, h]
      simp only [Bool.false_eq_true, if_false]
      rw [applyTick_stopped, h]
      rcases Bool.eq_false_or_eq_true
          (strictEqStr (jsGet (oracle n) "status") sentinel) with hb | hb
      · rw [hb]
        simp only [eq_self_iff_true, if_true]
        constructor
        · intro _
          exact ⟨n, Nat.lt_succ_self n, hb⟩
        · intro _
          trivial
      · rw [hb]
        simp only [Bool.false_eq_true, if_false]
        constructor
        · intro hf
          exact hf.elim
        · rintro ⟨k, hk, hP⟩
          rcases Nat.lt_succ_iff_lt_or_eq.mp hk with hlt | rfl
          · rw [ih.mpr ⟨k, hlt, hP⟩] at h
            exact Bool.noConfusion h
          · rw [hP] at hb
            exact Bool.noConfusion hb

theorem pollStatusRun_requests (tid : String) (oracle : Nat → JsObj)
    (n : Nat) :
    ((pollStatusRun tid oracle n).requests).all
      (fun u => u == "/results/" ++ tid) = true ∧
    ((pollStatusRun tid oracle n).requests).length =
      (pollStatusRun tid oracle n).queries := by
  induction n with
  | zero => exact ⟨rfl, rfl⟩
  | succ n ih =>
    obtain ⟨iha, ihl⟩ := ih
    rw [pollStatusRun_succ]
    rcases Bool.eq_false_or_eq_true (pollStatusRun tid oracle n).stopped
      with h | h
    · rw [h]
      simp only [eq_self_iff_true, if_true]
      exact ⟨iha, ihl⟩
    · rw [h]
      simp only [Bool.false_eq_true, if_false]
      rw [applyTick_requests, applyTick_queries]
      constructor
      · simp [List.all_append, iha]
      · simp [ihl]

/-- C1: once a status query returns the sentinel `Analysis Completed`, the
poll loop stops permanently: the state never changes again, no further
status query is issued, and the completion signal has occurred exactly once
and is never re-triggered, whatever the oracle would answer afterwards. -/
theorem poll_stops_permanently (tid : String) (oracle : Nat → JsObj)
    (n m : Nat) (hs : (pollStatusRun tid oracle n).stopped = true)
    (hnm : n ≤ m) :
    pollStatusRun tid oracle m = pollStatusRun tid oracle n ∧
    (pollStatusRun tid oracle m).queries = (pollStatusRun tid oracle n).queries ∧
    (pollStatusRun tid oracle m).completions = 1 := by
  have hm : pollStatusRun tid oracle m = pollStatusRun tid oracle n := by
    have hf := pollStatusRun_frozen tid oracle n hs (m - n)
    rwa [Nat.add_sub_cancel' hnm] at hf
  refine ⟨hm, by rw [hm], ?_⟩
  rw [hm, pollStatusRun_completions, hs]
  simp

/-- C1 witness: with an oracle that always answers the sentinel, the loop
is stopped after tick 1 and ticks 2 and 3 change nothing; the completion
signal happened exactly once. -/
theorem poll_stops_permanently_witness :
    pollStatusRun "t1" oracleDone 3 = pollStatusRun "t1" oracleDone 1 ∧
    (pollStatusRun "t1" oracleDone 3).queries =
      (pollStatusRun "t1" oracleDone 1).queries ∧
    (pollStatusRun "t1" oracleDone 3).completions = 1 :=
  poll_stops_permanently "t1" oracleDone 1 3 (by decide) (by decide)

/-- C3 counterexample: under responses `Queued`, `Running`,
`Analysis Completed`, after the first query the status display holds
`Current Task: Queued`, not the exact string `Queued` the claim
promises. -/
theorem status_display_prefixed_counterexample :
    (pollStatusRun "t1" oracleQRC 1).statusText = "Current Task: Queued" ∧
    ¬ (pollStatusRun "t1" oracleQRC 1).statusText = "Queued" := by
  constructor <;> decide

/-- C3 amended: a non-sentinel status string is embedded verbatim in the
in-progress label `Current Task: <status>` and polling continues; under
responses `Queued`, `Running`, `Analysis Completed` the status display
receives exactly `Current Task: Queued`, then `Current Task: Running`,
then the completion text `Analysis Completed!`, and the completion signal
fires once. -/
theorem status_labels_in_order (tid : String) (st : PollState) (resp : JsObj) :
    (applyTick tid st resp).statusText =
      (if strictEqStr (jsGet resp "status") sentinel then statusDoneText
       else "Current Task: " ++ jsDisplay (jsGet resp "status")) ∧
    (applyTick tid st resp).stopped =
      (if strictEqStr (jsGet resp "status") sentinel then true
       else st.stopped) ∧
    (pollStatusRun "t1" oracleQRC 1).statusText = "Current Task: Queued" ∧
    (pollStatusRun "t1" oracleQRC 2).statusText = "Current Task: Running" ∧
    (pollStatusRun "t1" oracleQRC 3).statusText = statusDoneText ∧
    (pollStatusRun "t1" oracleQRC 3).completions = 1 := by
  refine ⟨applyTick_statusText tid st resp, applyTick_stopped tid st resp,
    ?_, ?_, ?_, ?_⟩ <;> decide

/-- C4: status queries follow the fixed `setInterval` cadence of 2000 ms:
the first query fires one full interval after `pollStatus` is invoked
(never immediately), and each later query exactly one interval after the
previous one. -/
theorem poll_cadence :
    pollIntervalMs = 2000 ∧
    tickTime 0 = pollIntervalMs ∧
    0 < tickTime 0 ∧
    ∀ k, tickTime (k + 1) = tickTime k + pollIntervalMs := by
  refine ⟨rfl, rfl, by decide, fun k => ?_⟩
  unfold tickTime
  ring

/-- C5: if no response ever equals the sentinel, the loop never stops: it
is still running after any number of ticks and has issued one query per
tick, with no timeout or attempt bound. -/
theorem poll_never_stops (tid : String) (oracle : Nat → JsObj) (n : Nat)
    (h : ∀ k, strictEqStr (jsGet (oracle k) "status") sentinel = false) :
    (pollStatusRun tid oracle n).stopped = false ∧
    (pollStatusRun tid oracle n).queries = n := by
  have hs : (pollStatusRun tid oracle n).stopped = false := by
    rcases Bool.eq_false_or_eq_true (pollStatusRun tid oracle n).stopped
      with hb | hb
    · obtain ⟨k, _, hk⟩ := (pollStatusRun_stopped_iff tid oracle n).mp hb
      rw [h k] at hk
      exact Bool.noConfusion hk
    · exact hb
  exact ⟨hs, pollStatusRun_queries tid oracle n hs⟩

/-- C5 witness: with an oracle answering `Running` forever, after five
ticks the loop is still running and has issued five queries. -/
theorem poll_never_stops_witness :
    (pollStatusRun "t1" oracleRunning 5).stopped = false ∧
    (pollStatusRun "t1" oracleRunning 5).queries = 5 :=
  poll_never_stops "t1" oracleRunning 5 (fun _ => rfl)

/-- C6: every status query of a poll run requests exactly
`/results/{task_id}` with the task id embedded unmodified, and one such
request is logged per query, for the whole lifetime of the loop. -/
theorem poll_requests_use_task_id (tid : String) (oracle : Nat → JsObj)
    (n : Nat) :
    ((pollStatusRun tid oracle n).requests).all
      (fun u => u == "/results/" ++ tid) = true ∧
    ((pollStatusRun tid oracle n).requests).length =
      (pollStatusRun tid oracle n).queries :=
  pollStatusRun_requests tid oracle n

/-- C7: one form submission issues exactly one task-creation request: a
POST to `/analyze` with the `application/json` content type and a JSON body
holding exactly `main_url` verbatim from the form and the derived
`comparison_urls` array. -/
theorem submit_single_request (mu cu : String) :
    submitRequests mu cu = [analyzeRequest mu (specComparisonUrls cu)] ∧
    (analyzeRequest mu (specComparisonUrls cu)).method = "POST" ∧
    (analyzeRequest mu (specComparisonUrls cu)).url = "/analyze" ∧
    (analyzeRequest mu (specComparisonUrls cu)).headers =
      [("Content-Type", "application/json")] ∧
    (analyzeRequest mu (specComparisonUrls cu)).body =
      [("main_url", JsonVal.str mu),
       ("comparison_urls", JsonVal.strArr (specComparisonUrls cu))] := by
  refine ⟨?_, rfl, rfl, rfl, rfl⟩
  unfold submitRequests
  rw [comparisonUrls_eq_spec]

/-- C8: a rejected `fetch` or a body that fails JSON parsing propagates as
the unhandled error of the submit flow: no status-text update happens,
polling never starts, and no error message is produced. -/
theorem submit_failure_propagates (e raw : String)
    (parseJson : String → Except String JsObj)
    (hp : parseJson raw = Except.error e) :
    runSubmit (Except.error e) parseJson = Except.error e ∧
    runSubmit (Except.ok raw) parseJson = Except.error e := by
  constructor
  · rfl
  · simp [runSubmit, hp]

/-- C8 witness: a concrete network failure and a concrete non-JSON body
both make the submit flow end in the same unhandled error with no effect
performed. -/
theorem submit_failure_propagates_witness :
    runSubmit (Except.error "network failure")
      (fun _ => Except.error "network failure") =
      Except.error "network failure" ∧
    runSubmit (Except.ok "not json")
      (fun _ => Except.error "network failure") =
      Except.error "network failure" :=
  submit_failure_propagates "network failure" "not json"
    (fun _ => Except.error "network failure") rfl

/-- C9: a tick whose status is not the sentinel changes neither the results
region nor its write count, while a terminal tick writes it; over a whole
run the results region has been written exactly once if the loop stopped
and never otherwise. -/
theorem results_region_frame (tid : String) (oracle : Nat → JsObj) (n : Nat)
    (st : PollState) (resp : JsObj) :
    (applyTick tid st resp).resultsText =
      (if strictEqStr (jsGet resp "status") sentinel then resultsDoneText
       else st.resultsText) ∧
    (applyTick tid st resp).resultsWrites =
      (if strictEqStr (jsGet resp "status") sentinel then st.resultsWrites + 1
       else st.resultsWrites) ∧
    (pollStatusRun tid oracle n).resultsWrites =
      (if (pollStatusRun tid oracle n).stopped then 1 else 0) :=
  ⟨applyTick_resultsText tid st resp, applyTick_resultsWrites tid st resp,
    pollStatusRun_resultsWrites tid oracle n⟩

/-- C10: the loop stops exactly when some response's `status` field is
strictly equal to the sentinel string; an absent field (`undefined`) or any
non-string or differing value never stops it, and a non-sentinel tick never
fails in any modelled way. -/
theorem stop_decided_by_strict_equality (tid : String) (oracle : Nat → JsObj)
    (n : Nat) :
    ((pollStatusRun tid oracle n).stopped = true ↔
      ∃ k, k < n ∧ jsGet (oracle k) "status" = JsValue.str sentinel) ∧
    ∀ v : JsValue, strictEqStr v sentinel = true ↔ v = JsValue.str sentinel := by
  constructor
  · rw [pollStatusRun_stopped_iff]
    constructor
    · rintro ⟨k, hk, hP⟩
      exact ⟨k, hk, (strictEqStr_iff (jsGet (oracle k) "status") sentinel).mp hP⟩
    · rintro ⟨k, hk, hP⟩
      exact ⟨k, hk, (strictEqStr_iff (jsGet (oracle k) "status") sentinel).mpr hP⟩
  · exact fun v => strictEqStr_iff v sentinel

end CogniSynapseRank
